import Mathlib

/-!
Shallow embedding of the Vanity Address Search Subsystem
(`services/vanityService.js` together with the worker protocol of
`vanityWorker.js`).

Numbers: the JavaScript source computes with IEEE doubles.  Every quantity
reached here is a non-negative exact fraction (powers `58^len` for
`len ≤ 6`, products with the literal constant `0.693`, divisions by
`1000`/`60`/`3600`/`86400`), and at all inputs the theorems touch the
double computation agrees with the exact one (no value lands near a
rounding boundary), so the embedding represents these numbers as exact
unnormalised fractions `num/den` over ℕ.  `Math.round` on non-negative
values is `floor (x + 1/2)`.  Error strings keep the source wording with
the leading emoji markers elided.
-/

namespace Vanity

/-- A non-negative exact fraction `num/den`.  All denominators occurring in
the code are positive except in the `contains`-difficulty of the empty
pattern, a case `validatePattern` never reaches (it returns early on empty
input) and the theorems below avoid. -/
structure Frac where
  num : ℕ
  den : ℕ
deriving DecidableEq, Repr

/-- The rational value of a fraction, for the order-theoretic claims. -/
def Frac.toRat (x : Frac) : ℚ := (x.num : ℚ) / (x.den : ℚ)

/-- JS `Math.round` on the non-negative fraction `x`:
`floor (x + 1/2)`. -/
def jsRound (x : Frac) : ℕ := (2 * x.num + x.den) / (2 * x.den)

/-- The difficulty record built by `calculateDifficulty`. -/
structure Difficulty where
  difficulty : Frac
  estimatedAttempts : ℕ
  estimatedTime : String
  warningLevel : String
deriving DecidableEq, Repr

/-- `getDifficultyWarning(estimatedSeconds)` from the source; the argument
is the exact value of `estimatedSeconds`, compared against the 60/300/1800
second thresholds. -/
def getDifficultyWarning (s : Frac) : String :=
  if s.num < 60 * s.den then "easy"
  else if s.num < 300 * s.den then "medium"
  else if s.num < 1800 * s.den then "hard"
  else "extreme"

/-- `formatTime(seconds)` from the source; dividing `num/den` by `60`,
`3600` or `86400` scales the denominator. -/
def formatTime (s : Frac) : String :=
  if s.num < 60 * s.den then toString (jsRound s) ++ "s"
  else if s.num < 3600 * s.den then toString (jsRound ⟨s.num, 60 * s.den⟩) ++ "m"
  else if s.num < 86400 * s.den then toString (jsRound ⟨s.num, 3600 * s.den⟩) ++ "h"
  else toString (jsRound ⟨s.num, 86400 * s.den⟩) ++ "d"

/-- `calculateDifficulty(pattern, type)` from the source.  The `switch` on
`type` sends `contains` to `58^len / len` and both named cases
`prefix`/`suffix` as well as the `default` branch to `58^len`; the code
multiplies by the literal `0.693` (not `ln 2`) and divides by an assumed
throughput of 1000 attempts/sec. -/
def calculateDifficulty (pat ty : String) : Difficulty :=
  let len : ℕ := pat.length
  let baseDifficulty : Frac :=
    if ty = "contains" then ⟨58 ^ len, len⟩ else ⟨58 ^ len, 1⟩
  let estimatedAttempts : ℕ :=
    jsRound ⟨baseDifficulty.num * 693, baseDifficulty.den * 1000⟩
  let estimatedSeconds : Frac := ⟨estimatedAttempts, 1000⟩
  { difficulty := baseDifficulty
    estimatedAttempts := estimatedAttempts
    estimatedTime := formatTime estimatedSeconds
    warningLevel := getDifficultyWarning estimatedSeconds }

/-- The 58-character alphabet of the `validBase58` regex in the source. -/
def base58Alphabet : List Char :=
  "123456789ABCDEFGHJKLMNPQRSTUVWXYZabcdefghijkmnopqrstuvwxyz".data

/-- Whether every character of `p` lies in the base58 alphabet; on the
non-empty strings it is applied to, this is the anchored regex test of
the source. -/
def validBase58 (p : String) : Bool :=
  p.data.all (fun c => base58Alphabet.contains c)

/-- The record returned by `validatePattern`; the early empty-pattern
return carries no `difficulty` field, hence the `Option`. -/
structure VRes where
  valid : Bool
  errors : List String
  difficulty : Option Difficulty
deriving DecidableEq, Repr

/-- The `errors` array `validatePattern` accumulates past its early
empty-pattern return, in push order: the length error, the charset error
and — when the warning level of the estimate is `extreme` — the difficulty
message. -/
def validationErrors (pat ty : String) : List String :=
  (if 6 < pat.length then ["Pattern too long (max 6 characters)"] else [])
  ++ (if validBase58 pat then []
      else ["Pattern contains invalid characters (use Base58: no 0, O, I, l)"])
  ++ (if (calculateDifficulty pat ty).warningLevel = "extreme" then
        ["This pattern is extremely difficult and may take "
          ++ (calculateDifficulty pat ty).estimatedTime ++ " to find"]
      else [])

/-- `validatePattern(pattern, type)` from the source: empty patterns return
early; otherwise the accumulated errors are returned together with the
difficulty estimate, and `valid` is `errors.length === 0`. -/
def validatePattern (pat ty : String) : VRes :=
  if pat.length = 0 then
    { valid := false, errors := ["Pattern cannot be empty"], difficulty := none }
  else
    { valid := (validationErrors pat ty).isEmpty,
      errors := validationErrors pat ty,
      difficulty := some (calculateDifficulty pat ty) }

/-! ## Job Manager state model

The JS `VanityService` instance holds `activeJobs : Map (userId → jobInfo)`
(modelled as an association list written only through the operations
below, so its keys stay distinct exactly as for a JS `Map`) and constants
`maxConcurrentJobs = 3`, `maxPatternLength = 6`, `maxGenerationTime =
30 min`.  The `worker` and `timeout` handles of a job are modelled by a
`workerTerminated` flag plus the system-level `pendingExits` queue: in
Node, `worker.terminate()` makes the `exit` event of the worker fire with
code 1, and
`startGeneration` registers an `exit` listener that invokes
`handleWorkerError` whenever the code is non-zero.  A scheduled timeout may
fire only while its job is still in the table (`cleanupJob` calls
`clearTimeout` at the same instant it deletes the entry). -/

/-- One entry of `activeJobs`. -/
structure JobInfo where
  jobId : String
  userId : ℕ
  pattern : String
  mtype : String
  startTime : ℕ
  lastProgress : ℕ
  difficulty : Difficulty
  workerTerminated : Bool
deriving DecidableEq, Repr

/-- Whole-service state: the active-job table plus the worker `exit`
events (exit code 1, from terminations) not yet delivered. -/
structure SysState where
  activeJobs : List (ℕ × JobInfo)
  pendingExits : List ℕ
deriving DecidableEq, Repr

def initState : SysState := ⟨[], []⟩

/-- `this.activeJobs.get(userId)`. -/
def findJob (st : SysState) (u : ℕ) : Option JobInfo :=
  (st.activeJobs.find? (fun e => e.1 == u)).map (·.2)

/-- Replace the entry at key `u` (the key is already present at each use
site). -/
def updateJob (m : List (ℕ × JobInfo)) (u : ℕ) (j : JobInfo) : List (ℕ × JobInfo) :=
  m.map (fun e => if e.1 == u then (u, j) else e)

/-- JS `Map.set`: overwrite an existing key, otherwise append. -/
def jsMapSet (m : List (ℕ × JobInfo)) (u : ℕ) (j : JobInfo) : List (ℕ × JobInfo) :=
  if (m.find? (fun e => e.1 == u)).isSome then updateJob m u j else m ++ [(u, j)]

/-- `jobInfo.worker.terminate()`: mark the worker dead and, if it was
still live, enqueue its code-1 `exit` event (a Node worker exits once;
terminating an already-dead worker fires nothing). -/
def terminateWorker (st : SysState) (u : ℕ) : SysState :=
  match findJob st u with
  | none => st
  | some j =>
    if j.workerTerminated then st
    else ⟨updateJob st.activeJobs u { j with workerTerminated := true },
          st.pendingExits ++ [u]⟩

/-- `cleanupJob(userId)` from the source: if a job exists, clear its
timeout, terminate its worker and delete the table entry. -/
def cleanupJob (st : SysState) (u : ℕ) : SysState :=
  match findJob st u with
  | none => st
  | some _ =>
    let st1 := terminateWorker st u
    ⟨st1.activeJobs.filter (fun e => !(e.1 == u)), st1.pendingExits⟩

/-- One notification pushed through `telegramBot.sendMessage`; each
constructor is one of the four `sendMessage` call sites of the service
(progress text, success text, "Vanity Generation Failed" text,
"Vanity Generation Cancelled" text), carrying the data the template
interpolates that the claims refer to. -/
inductive Notif where
  | progressN (userId attempts : ℕ)
  | successN (userId : ℕ) (address : String) (attempts : ℕ)
  | failedN (userId : ℕ) (reason : String)
  | cancelledN (userId : ℕ) (reason : String)
deriving DecidableEq, Repr

/-- The object `handleSuccess` builds and returns "for saving to
database". -/
structure SuccessRecord where
  address : String
  publicKey : String
  privateKey : List ℕ
  mnemonic : String
  isVanity : Bool
  vanityPattern : String
  vanityType : String
  attempts : ℕ
  generationTime : ℕ
deriving DecidableEq, Repr

/-- `handleWorkerError(userId, error)`: sends the failure text and cleans
up.  Unlike `handleProgress`/`handleSuccess` it does NOT check that the
user still has an active job. -/
def handleWorkerError (st : SysState) (u : ℕ) (reason : String) :
    SysState × List Notif :=
  (cleanupJob st u, [Notif.failedN u reason])

/-- `handleProgress(userId, message)`: drop if no active job; notify and
record `lastProgress` only when at least 10000 attempts were added since
the last notified value. -/
def handleProgress (st : SysState) (u : ℕ) (attempts : ℕ) :
    SysState × List Notif :=
  match findJob st u with
  | none => (st, [])
  | some j =>
    if 10000 ≤ attempts - j.lastProgress then
      (⟨updateJob st.activeJobs u { j with lastProgress := attempts }, st.pendingExits⟩,
       [Notif.progressN u attempts])
    else (st, [])

/-- `handleSuccess(userId, message)`: drop if no active job; otherwise
send the success text, clean up, and return the result record for saving
to the database. -/
def handleSuccess (st : SysState) (u : ℕ) (address publicKey : String)
    (privateKey : List ℕ) (mnemonic : String) (attempts now : ℕ) :
    SysState × List Notif × Option SuccessRecord :=
  match findJob st u with
  | none => (st, [], none)
  | some j =>
    (cleanupJob st u, [Notif.successN u address attempts],
     some { address := address, publicKey := publicKey, privateKey := privateKey,
            mnemonic := mnemonic, isVanity := true, vanityPattern := j.pattern,
            vanityType := j.mtype, attempts := attempts,
            generationTime := now - j.startTime })

/-- The worker-to-manager message protocol of `vanityWorker.js`. -/
inductive WMsg where
  | progressW (attempts : ℕ)
  | successW (address publicKey : String) (privateKey : List ℕ)
             (mnemonic : String) (attempts : ℕ)
  | errorW (reason : String)
deriving DecidableEq, Repr

/-- `handleWorkerMessage(userId, message)`: guard on an active job, then
dispatch on the message tag.  The `switch` statement discards the record
`handleSuccess` returns — only the pair below leaves the dispatcher. -/
def handleWorkerMessage (st : SysState) (u : ℕ) (m : WMsg) (now : ℕ) :
    SysState × List Notif :=
  match findJob st u with
  | none => (st, [])
  | some _ =>
    match m with
    | .progressW a => handleProgress st u a
    | .successW ad pk sk mn a =>
      let r := handleSuccess st u ad pk sk mn a now
      (r.1, r.2.1)
    | .errorW e => handleWorkerError st u e

/-- `cancelGeneration(userId, reason)`: `false` without notification when
no job exists; otherwise terminate the worker, send the cancellation text
with the reason, clean up, return `true`. -/
def cancelGeneration (st : SysState) (u : ℕ) (reason : String) :
    SysState × List Notif × Bool :=
  match findJob st u with
  | none => (st, [], false)
  | some _ =>
    let st1 := terminateWorker st u
    (cleanupJob st1 u, [Notif.cancelledN u reason], true)

/-- The admission-control failures of `startGeneration` (each is a thrown
`Error` in the source, distinguished by its message). -/
inductive StartError where
  | alreadyActive
  | concurrencyLimitReached
  | invalidPattern (errors : List String)
deriving DecidableEq, Repr

/-- The success payload of `startGeneration` (the source also returns a
human-readable `startMessage` built from these same fields). -/
structure StartOk where
  jobId : String
  difficulty : Difficulty
deriving DecidableEq, Repr

/-- `startGeneration(userId, pattern, type)`: already-active check, then
concurrency-ceiling check (`maxConcurrentJobs = 3`), then validation; on
success insert the fresh job (worker spawned live, timeout armed).  The
fresh `jobId` and the clock reading are parameters.  `validation.valid`
guarantees the `difficulty` field is present; the `none` arm is
unreachable. -/
def startGeneration (st : SysState) (u : ℕ) (pat ty : String)
    (now : ℕ) (jid : String) : Except StartError (SysState × StartOk) :=
  if (findJob st u).isSome then .error .alreadyActive
  else if 3 ≤ st.activeJobs.length then .error .concurrencyLimitReached
  else if (validatePattern pat ty).valid then
    match (validatePattern pat ty).difficulty with
    | some d =>
      .ok (⟨jsMapSet st.activeJobs u
              { jobId := jid, userId := u, pattern := pat, mtype := ty,
                startTime := now, lastProgress := 0, difficulty := d,
                workerTerminated := false },
            st.pendingExits⟩,
           ⟨jid, d⟩)
    | none => .error (.invalidPattern (validatePattern pat ty).errors)
  else .error (.invalidPattern (validatePattern pat ty).errors)

/-- The view `getStatus(userId)` builds. -/
structure StatusView where
  pattern : String
  mtype : String
  elapsed : String
  difficulty : Difficulty
deriving DecidableEq, Repr

/-- `getStatus(userId)`: `null` without an active job, otherwise the
read-only snapshot `{pattern, type, elapsed: formatTime(elapsed/1000),
difficulty}`. -/
def getStatus (st : SysState) (u : ℕ) (now : ℕ) : Option StatusView :=
  (findJob st u).map (fun j =>
    { pattern := j.pattern, mtype := j.mtype,
      elapsed := formatTime ⟨now - j.startTime, 1000⟩,
      difficulty := j.difficulty })

/-- The external stimuli the manager reacts to: a `start` call, a `cancel`
call, a worker message, a timeout firing (the `setTimeout` callback armed
by `start`, which invokes `cancelGeneration` with the fixed reason), and
the delivery of the code-1 `exit` event of a terminated worker. -/
inductive Event where
  | startReq (userId : ℕ) (pat ty : String) (now : ℕ) (jid : String)
  | cancelReq (userId : ℕ) (reason : String)
  | workerMsg (userId : ℕ) (m : WMsg) (now : ℕ)
  | timeoutFire (userId : ℕ)
  | workerExit (userId : ℕ)
deriving DecidableEq, Repr

/-- One serialized manager step: the state update and the notifications it
pushes.  A `start` failure is reported synchronously to the caller (no
notification); a `timeoutFire` is the armed callback, which invokes `cancelGeneration`
with the fixed timed-out reason;
a `workerExit` delivers a queued code-1 `exit` event to the listener
`(code) => { if (code !== 0) handleWorkerError(...) }`. -/
def applyEvent (st : SysState) (ev : Event) : SysState × List Notif :=
  match ev with
  | .startReq u pat ty now jid =>
    match startGeneration st u pat ty now jid with
    | .ok (st', _) => (st', [])
    | .error _ => (st, [])
  | .cancelReq u reason =>
    let r := cancelGeneration st u reason
    (r.1, r.2.1)
  | .workerMsg u m now => handleWorkerMessage st u m now
  | .timeoutFire u =>
    let r := cancelGeneration st u "Generation timed out after 30 minutes"
    (r.1, r.2.1)
  | .workerExit u =>
    if st.pendingExits.contains u then
      handleWorkerError ⟨st.activeJobs, st.pendingExits.erase u⟩ u
        "Worker stopped with exit code 1"
    else (st, [])

/-- Run a sequence of events, collecting every notification pushed. -/
def runEvents (st : SysState) : List Event → SysState × List Notif
  | [] => (st, [])
  | e :: es =>
    let r := applyEvent st e
    let r2 := runEvents r.1 es
    (r2.1, r.2 ++ r2.2)

/-- The state after a sequence of events from a fresh service instance. -/
def reach (evs : List Event) : SysState := (runEvents initState evs).1

deriving instance DecidableEq for Except

/-! ## Table lemmas

`activeJobs` is written only through the operations above; these lemmas
track its key multiset the way the key set of a JS `Map` behaves. -/

/-- The requester column of the table. -/
def keys (m : List (ℕ × JobInfo)) : List ℕ := m.map Prod.fst

/-- The JS-`Map` shape of the table: one entry per requester. -/
def Inv (st : SysState) : Prop := (keys st.activeJobs).Nodup

theorem keys_updateJob (m : List (ℕ × JobInfo)) (u : ℕ) (j : JobInfo) :
    keys (updateJob m u j) = keys m := by
  unfold keys updateJob
  rw [List.map_map]
  apply List.map_congr_left
  intro e _
  by_cases h : e.1 = u
  · simp [Function.comp, h]
  · simp [Function.comp, h]

theorem nodup_keys_filter (m : List (ℕ × JobInfo)) (p : ℕ × JobInfo → Bool)
    (h : (keys m).Nodup) : (keys (m.filter p)).Nodup := by
  unfold keys at h ⊢
  exact ((List.filter_sublist m).map Prod.fst).nodup h

theorem mem_keys_of_mem (m : List (ℕ × JobInfo)) (e : ℕ × JobInfo)
    (he : e ∈ m) : e.1 ∈ keys m :=
  List.mem_map_of_mem Prod.fst he

theorem find?_eq_none_iff (m : List (ℕ × JobInfo)) (u : ℕ) :
    m.find? (fun e => e.1 == u) = none ↔ u ∉ keys m := by
  rw [List.find?_eq_none]
  constructor
  · intro h hmem
    rcases List.mem_map.mp hmem with ⟨e, hem, hfst⟩
    exact h e hem (by simpa using hfst)
  · intro h e hem hbeq
    exact h (by
      have : e.1 = u := by simpa using hbeq
      exact this ▸ mem_keys_of_mem m e hem)

theorem findJob_eq_none_iff (st : SysState) (u : ℕ) :
    findJob st u = none ↔ u ∉ keys st.activeJobs := by
  unfold findJob
  rw [Option.map_eq_none', find?_eq_none_iff]

theorem find?_filter_self (m : List (ℕ × JobInfo)) (u : ℕ) :
    (m.filter (fun e => !(e.1 == u))).find? (fun e => e.1 == u) = none := by
  rw [List.find?_eq_none]
  intro e he
  have := (List.mem_filter.mp he).2
  simpa using this

theorem findJob_updateJob (m : List (ℕ × JobInfo)) (u : ℕ) (j j' : JobInfo)
    (pe pe' : List ℕ) (h : findJob ⟨m, pe⟩ u = some j) :
    findJob ⟨updateJob m u j', pe'⟩ u = some j' := by
  unfold findJob updateJob at *
  dsimp only at h ⊢
  induction m with
  | nil => simp at h
  | cons e es ih =>
    by_cases he : e.1 = u
    · have hb : (e.1 == u) = true := by simpa using he
      have hmap : List.map (fun x => if x.1 == u then (u, j') else x) (e :: es)
          = (u, j') :: List.map (fun x => if x.1 == u then (u, j') else x) es := by
        simp [he]
      rw [hmap, List.find?_cons_of_pos _ (by simp)]
      simp
    · have hb : (e.1 == u) = false := by simpa using he
      rw [List.find?_cons_of_neg _ (by simp [hb])] at h
      have hmap : List.map (fun x => if x.1 == u then (u, j') else x) (e :: es)
          = e :: List.map (fun x => if x.1 == u then (u, j') else x) es := by
        simp [he]
      rw [hmap, List.find?_cons_of_neg _ (by simp [hb])]
      exact ih h

theorem filter_key_len_le_one (m : List (ℕ × JobInfo)) (u : ℕ)
    (h : (keys m).Nodup) : (m.filter (fun e => e.1 == u)).length ≤ 1 := by
  induction m with
  | nil => simp
  | cons e es ih =>
    have h' := List.nodup_cons.mp h
    rw [List.filter_cons]
    by_cases he : e.1 = u
    · have hb : (e.1 == u) = true := by simpa using he
      have hnil : es.filter (fun x => x.1 == u) = [] := by
        rw [List.filter_eq_nil_iff]
        intro x hx hbx
        have hxu : x.1 = u := by simpa using hbx
        exact h'.1 (by
          have : x.1 = e.1 := hxu.trans he.symm
          exact this ▸ mem_keys_of_mem es x hx)
      simp [hb, hnil]
    · have hb : (e.1 == u) = false := by simpa using he
      simpa [hb] using ih h'.2

theorem filter_ne_key_length (m : List (ℕ × JobInfo)) (u : ℕ)
    (hnodup : (keys m).Nodup) (hmem : u ∈ keys m) :
    (m.filter (fun e => !(e.1 == u))).length = m.length - 1 := by
  induction m with
  | nil => simp [keys] at hmem
  | cons e es ih =>
    have h' := List.nodup_cons.mp hnodup
    rw [List.filter_cons]
    by_cases he : e.1 = u
    · have hb : (e.1 == u) = true := by simpa using he
      have hself : es.filter (fun x => !(x.1 == u)) = es := by
        rw [List.filter_eq_self]
        intro x hx
        have hxu : x.1 ≠ u := by
          intro hxu
          exact h'.1 (by
            have : x.1 = e.1 := hxu.trans he.symm
            exact this ▸ mem_keys_of_mem es x hx)
        simpa using hxu
      simp [hb, hself]
    · have hb : (e.1 == u) = false := by simpa using he
      have hmem' : u ∈ keys es := by
        have hsplit : u = e.1 ∨ u ∈ keys es := by simpa [keys] using hmem
        rcases hsplit with h | h
        · exact absurd h.symm he
        · exact h
      have hlen : 1 ≤ es.length := by
        rcases es with _ | ⟨f, fs⟩
        · simp [keys] at hmem'
        · simp
      have hrec := ih h'.2 hmem'
      simp only [hb, Bool.not_false, if_true, List.length_cons]
      omega

/-- `validatePattern` only reports `valid` on the branch that carries the
difficulty record. -/
theorem difficulty_of_valid (pat ty : String)
    (h : (validatePattern pat ty).valid = true) :
    (validatePattern pat ty).difficulty = some (calculateDifficulty pat ty) := by
  unfold validatePattern at h ⊢
  by_cases h0 : pat.length = 0
  · rw [if_pos h0] at h
    simp at h
  · rw [if_neg h0] at h ⊢

/-- A reachable one-job state used as concrete input by several
verification theorems: a fresh service after `start(1, "ABC", prefix)` at
time 0 with job id `"j1"`. -/
def demoSt : SysState := reach [.startReq 1 "ABC" "prefix" 0 "j1"]

/-- A reachable three-job state (requesters 1, 2, 3, all valid starts). -/
def demoSt3 : SysState :=
  reach [.startReq 1 "ABC" "prefix" 0 "j1", .startReq 2 "Moo" "suffix" 0 "j2",
         .startReq 3 "abc" "contains" 0 "j3"]

/-! ## Preservation of the one-entry-per-requester table shape -/

theorem inv_terminateWorker (st : SysState) (u : ℕ) (h : Inv st) :
    Inv (terminateWorker st u) := by
  unfold terminateWorker
  split
  · exact h
  · split
    · exact h
    · unfold Inv
      rw [keys_updateJob]
      exact h

theorem inv_cleanupJob (st : SysState) (u : ℕ) (h : Inv st) :
    Inv (cleanupJob st u) := by
  unfold cleanupJob
  split
  · exact h
  · exact nodup_keys_filter _ _ (inv_terminateWorker st u h)

theorem inv_handleWorkerError (st : SysState) (u : ℕ) (r : String) (h : Inv st) :
    Inv (handleWorkerError st u r).1 :=
  inv_cleanupJob st u h

theorem inv_handleProgress (st : SysState) (u a : ℕ) (h : Inv st) :
    Inv (handleProgress st u a).1 := by
  unfold handleProgress
  split
  · exact h
  · split
    · unfold Inv
      rw [keys_updateJob]
      exact h
    · exact h

theorem inv_handleSuccess (st : SysState) (u : ℕ) (ad pk : String) (sk : List ℕ)
    (mn : String) (a now : ℕ) (h : Inv st) :
    Inv (handleSuccess st u ad pk sk mn a now).1 := by
  unfold handleSuccess
  split
  · exact h
  · exact inv_cleanupJob st u h

theorem inv_handleWorkerMessage (st : SysState) (u : ℕ) (m : WMsg) (now : ℕ)
    (h : Inv st) : Inv (handleWorkerMessage st u m now).1 := by
  unfold handleWorkerMessage
  split
  · exact h
  · split
    · exact inv_handleProgress st u _ h
    · exact inv_handleSuccess st u _ _ _ _ _ _ h
    · exact inv_handleWorkerError st u _ h

theorem inv_cancelGeneration (st : SysState) (u : ℕ) (r : String) (h : Inv st) :
    Inv (cancelGeneration st u r).1 := by
  unfold cancelGeneration
  split
  · exact h
  · exact inv_cleanupJob _ u (inv_terminateWorker st u h)

theorem inv_startGeneration (st : SysState) (u : ℕ) (pat ty : String)
    (now : ℕ) (jid : String) (p : SysState × StartOk)
    (hok : startGeneration st u pat ty now jid = .ok p) (h : Inv st) :
    Inv p.1 := by
  unfold startGeneration at hok
  by_cases h1 : (findJob st u).isSome
  · rw [if_pos h1] at hok
    exact absurd hok (by simp)
  · rw [if_neg h1] at hok
    by_cases h2 : 3 ≤ st.activeJobs.length
    · rw [if_pos h2] at hok
      exact absurd hok (by simp)
    · rw [if_neg h2] at hok
      by_cases h3 : (validatePattern pat ty).valid = true
      · rw [if_pos h3, difficulty_of_valid pat ty h3] at hok
        have hp := (Except.ok.injEq _ _).mp hok
        subst hp
        unfold Inv jsMapSet
        have hnone : st.activeJobs.find? (fun e => e.1 == u) = none := by
          rcases hfind : st.activeJobs.find? (fun e => e.1 == u) with _ | e
          · exact hfind
          · exfalso
            apply h1
            unfold findJob
            rw [hfind]
            rfl
        rw [if_neg (by rw [hnone]; simp)]
        have hnotin : u ∉ keys st.activeJobs := (find?_eq_none_iff _ u).mp hnone
        unfold keys
        rw [List.map_append]
        simp only [List.map_cons, List.map_nil]
        rw [List.nodup_append]
        refine ⟨h, List.nodup_singleton u, ?_⟩
        intro x hx hx1
        rcases List.mem_singleton.mp hx1 with rfl
        exact hnotin hx
      · rw [if_neg h3] at hok
        exact absurd hok (by simp)

theorem inv_applyEvent (st : SysState) (ev : Event) (h : Inv st) :
    Inv (applyEvent st ev).1 := by
  cases ev with
  | startReq u pat ty now jid =>
    simp only [applyEvent]
    rcases hok : startGeneration st u pat ty now jid with e | p
    · exact h
    · exact inv_startGeneration st u pat ty now jid p hok h
  | cancelReq u reason =>
    simp only [applyEvent]
    exact inv_cancelGeneration st u reason h
  | workerMsg u m now =>
    simp only [applyEvent]
    exact inv_handleWorkerMessage st u m now h
  | timeoutFire u =>
    simp only [applyEvent]
    exact inv_cancelGeneration st u _ h
  | workerExit u =>
    simp only [applyEvent]
    split
    · exact inv_handleWorkerError _ u _ h
    · exact h

theorem inv_runEvents (st : SysState) (evs : List Event) (h : Inv st) :
    Inv (runEvents st evs).1 := by
  induction evs generalizing st with
  | nil => exact h
  | cons e es ih => exact ih _ (inv_applyEvent st e h)

theorem inv_reach (evs : List Event) : Inv (reach evs) :=
  inv_runEvents initState evs (by simp [Inv, initState, keys])

/-- Deleting the entry of a requester really removes it: after `cleanupJob` the
requester has no active job, whatever the starting state. -/
theorem findJob_cleanupJob_self (st : SysState) (u : ℕ) :
    findJob (cleanupJob st u) u = none := by
  unfold cleanupJob
  rcases hf : findJob st u with _ | j
  · exact hf
  · unfold findJob
    rw [find?_filter_self]
    rfl

/-- Terminating a worker rewrites one entry in place: the key column is
unchanged. -/
theorem keys_terminateWorker (st : SysState) (u : ℕ) :
    keys (terminateWorker st u).activeJobs = keys st.activeJobs := by
  unfold terminateWorker
  rcases hf : findJob st u with _ | j
  · rfl
  · by_cases hw : j.workerTerminated
    · simp [hw]
    · simp [hw, keys_updateJob]

/-- `cancel` on a requester with an active job: exactly one
cancellation notification carrying the reason, result `true`, and the
entry is gone. -/
theorem cancel_spec (st : SysState) (u : ℕ) (r : String) (j : JobInfo)
    (h : findJob st u = some j) :
    (cancelGeneration st u r).2.1 = [Notif.cancelledN u r]
    ∧ (cancelGeneration st u r).2.2 = true
    ∧ findJob (cancelGeneration st u r).1 u = none := by
  unfold cancelGeneration
  rw [h]
  exact ⟨rfl, rfl, findJob_cleanupJob_self _ u⟩

/-! ## Claims -/

/-- C1: in every state reachable by any sequence of start/cancel/
worker-message/timeout/worker-exit events, the active-job table maps each
requester to at most one job, and a `start` issued while the requester
already owns an active job fails with the already-active error and changes
nothing. -/
theorem c1_at_most_one_active_job (evs : List Event) (u : ℕ) (pat ty : String)
    (now : ℕ) (jid : String) :
    ((reach evs).activeJobs.filter (fun e => e.1 == u)).length ≤ 1
    ∧ ((findJob (reach evs) u).isSome = true →
        startGeneration (reach evs) u pat ty now jid = .error .alreadyActive
        ∧ applyEvent (reach evs) (.startReq u pat ty now jid) = (reach evs, [])) := by
  refine ⟨filter_key_len_le_one _ u (inv_reach evs), ?_⟩
  intro hact
  have hstart : startGeneration (reach evs) u pat ty now jid = .error .alreadyActive := by
    unfold startGeneration
    rw [if_pos hact]
  refine ⟨hstart, ?_⟩
  simp only [applyEvent, hstart]

/-- C1 witness: requester 1 owns the job of `demoSt`; a second start from
requester 1 is rejected as already active and the state is untouched. -/
theorem c1_witness :
    (findJob (reach [.startReq 1 "ABC" "prefix" 0 "j1"]) 1).isSome = true
    ∧ (startGeneration (reach [.startReq 1 "ABC" "prefix" 0 "j1"]) 1 "QRS" "suffix" 5 "j2"
         = .error .alreadyActive
       ∧ applyEvent (reach [.startReq 1 "ABC" "prefix" 0 "j1"])
           (.startReq 1 "QRS" "suffix" 5 "j2")
         = (reach [.startReq 1 "ABC" "prefix" 0 "j1"], [])) :=
  ⟨by decide,
   (c1_at_most_one_active_job [.startReq 1 "ABC" "prefix" 0 "j1"] 1 "QRS" "suffix" 5 "j2").2
     (by decide)⟩

/-- C2 counterexample: `"AAAA"` has valid length and alphabet and its
warning level of its estimate is `extreme`, yet `validatePattern` reports it
invalid — the extreme estimate is a hard validation failure, not a mere
warning. -/
theorem c2_counterexample :
    0 < "AAAA".length ∧ "AAAA".length ≤ 6 ∧ validBase58 "AAAA" = true
    ∧ (calculateDifficulty "AAAA" "prefix").warningLevel = "extreme"
    ∧ (validatePattern "AAAA" "prefix").valid = false := by decide

/-- C2 amended: for every pattern of valid length and alphabet whose
difficulty estimate has warning level `extreme`, validation fails: the
extreme-difficulty message is appended to the errors (so `valid` is
false), while the difficulty record itself is still returned to the
caller. -/
theorem c2_extreme_fails_validation (pat ty : String) (h0 : 0 < pat.length)
    (h6 : pat.length ≤ 6) (hb : validBase58 pat = true)
    (hx : (calculateDifficulty pat ty).warningLevel = "extreme") :
    (validatePattern pat ty).valid = false
    ∧ ("This pattern is extremely difficult and may take "
        ++ (calculateDifficulty pat ty).estimatedTime ++ " to find")
        ∈ (validatePattern pat ty).errors
    ∧ (validatePattern pat ty).difficulty = some (calculateDifficulty pat ty) := by
  unfold validatePattern validationErrors
  rw [if_neg (by omega), if_neg (by omega), if_pos hb, if_pos hx]
  simp

/-- C2 amended, witness at `"AAAA"`/`prefix`. -/
theorem c2_witness :
    (0 < "AAAA".length ∧ "AAAA".length ≤ 6 ∧ validBase58 "AAAA" = true
     ∧ (calculateDifficulty "AAAA" "prefix").warningLevel = "extreme")
    ∧ ((validatePattern "AAAA" "prefix").valid = false
       ∧ ("This pattern is extremely difficult and may take "
           ++ (calculateDifficulty "AAAA" "prefix").estimatedTime ++ " to find")
           ∈ (validatePattern "AAAA" "prefix").errors
       ∧ (validatePattern "AAAA" "prefix").difficulty
           = some (calculateDifficulty "AAAA" "prefix")) :=
  ⟨⟨by decide, by decide, by decide, by decide⟩,
   c2_extreme_fails_validation "AAAA" "prefix" (by decide) (by decide) (by decide) (by decide)⟩

/-- C6: `validatePattern` fails exactly when the pattern is empty, longer
than 6 symbols, or contains a character outside the base58 alphabet — or
when the difficulty estimate is `extreme`, the one further rejection the
code performs. -/
theorem c6_invalid_pattern_iff (pat ty : String) :
    (validatePattern pat ty).valid = false ↔
      (pat.length = 0 ∨ 6 < pat.length ∨ validBase58 pat = false
       ∨ (calculateDifficulty pat ty).warningLevel = "extreme") := by
  unfold validatePattern validationErrors
  by_cases h0 : pat.length = 0
  · simp [h0]
  · rw [if_neg h0]
    by_cases h1 : 6 < pat.length <;> by_cases h2 : validBase58 pat = true <;>
      by_cases h3 : (calculateDifficulty pat ty).warningLevel = "extreme" <;>
        simp [h0, h1, h2, h3]

/-- C7 counterexample: at pattern `"ABC"`, `prefix`, the code computes
`estimatedAttempts = 135213`, not the claimed 135267; indeed the code
multiplies by the literal `0.693`, not `ln 2` — `195112 · ln 2` exceeds
135240, so its rounding cannot be 135213 either. -/
theorem c7_counterexample :
    (calculateDifficulty "ABC" "prefix").estimatedAttempts = 135213
    ∧ (135213 : ℕ) ≠ 135267
    ∧ (135240 : ℝ) < 195112 * Real.log 2 := by
  refine ⟨by decide, by decide, ?_⟩
  nlinarith [Real.log_two_gt_d9]

/-- C7 amended: at pattern `"ABC"`, `prefix`, the code returns
`baseDifficulty = 58^3 = 195112`,
`estimatedAttempts = round(195112 · 0.693) = 135213` (so
`estimatedSeconds = 135.213`), formatted time `"2m"`, and warning level
`"medium"`. -/
theorem c7_difficulty_of_abc :
    calculateDifficulty "ABC" "prefix" =
      { difficulty := ⟨195112, 1⟩, estimatedAttempts := 135213,
        estimatedTime := "2m", warningLevel := "medium" } := by decide

/-- The single job entry of `demoSt`. -/
def jobABC : JobInfo :=
  { jobId := "j1", userId := 1, pattern := "ABC", mtype := "prefix",
    startTime := 0, lastProgress := 0,
    difficulty := calculateDifficulty "ABC" "prefix", workerTerminated := false }

/-- C3 (code bug): on a worker `success` message for the active job of
`demoSt`, `handleSuccess` builds the full result record — address, key
material, attempts, elapsed time — but the dispatcher
`handleWorkerMessage`, the only caller reachable from the worker message
channel, returns just the updated state and the success notification: the
record is discarded and no wallet-store persist happens anywhere in the
subsystem. -/
theorem c3_success_record_discarded :
    (handleSuccess demoSt 1 "ABCxyz" "ABCxyz" [1, 2, 3] "seed words" 4321 7).2.2
      = some { address := "ABCxyz", publicKey := "ABCxyz", privateKey := [1, 2, 3],
               mnemonic := "seed words", isVanity := true, vanityPattern := "ABC",
               vanityType := "prefix", attempts := 4321, generationTime := 7 }
    ∧ handleWorkerMessage demoSt 1 (.successW "ABCxyz" "ABCxyz" [1, 2, 3] "seed words" 4321) 7
      = ((handleSuccess demoSt 1 "ABCxyz" "ABCxyz" [1, 2, 3] "seed words" 4321 7).1,
         [Notif.successN 1 "ABCxyz" 4321]) := by decide

/-- C4 (code bug): cancelling the active job of `demoSt` and then
delivering the code-1 `exit` event of the terminated worker produces two
notifications for the one terminal transition — the cancellation text
followed by a spurious "Vanity Generation Failed" text, because the `exit`
listener calls `handleWorkerError`, which (unlike the other handlers)
never checks the active-job table. -/
theorem c4_spurious_second_notification :
    (findJob demoSt 1).isSome = true
    ∧ (runEvents demoSt [.cancelReq 1 "Cancelled by user", .workerExit 1]).2
      = [Notif.cancelledN 1 "Cancelled by user",
         Notif.failedN 1 "Worker stopped with exit code 1"] := by decide

/-- C5 counterexample: the deadline firing on the active job of `demoSt`
emits the same cancellation-template notification as a user cancel — the
code records no distinct `TimedOut` terminal state; the two outcomes
differ only in the interpolated reason string. -/
theorem c5_counterexample :
    (runEvents demoSt [.timeoutFire 1]).2
      = [Notif.cancelledN 1 "Generation timed out after 30 minutes"]
    ∧ (runEvents demoSt [.cancelReq 1 "Cancelled by user"]).2
      = [Notif.cancelledN 1 "Cancelled by user"] := by decide

/-- C5 amended: for a job still active when its deadline fires, the
timeout is literally `cancel` with reason "Generation timed out after 30
minutes": one cancelled-kind notification with that reason, the entry
removed, result `true`; callers can tell a timeout from a user cancel only
by the reason text. -/
theorem c5_timeout_behaves_as_cancel (st : SysState) (u : ℕ) (j : JobInfo)
    (h : findJob st u = some j) :
    applyEvent st (.timeoutFire u)
      = ((cancelGeneration st u "Generation timed out after 30 minutes").1,
         (cancelGeneration st u "Generation timed out after 30 minutes").2.1)
    ∧ (applyEvent st (.timeoutFire u)).2
        = [Notif.cancelledN u "Generation timed out after 30 minutes"]
    ∧ findJob (applyEvent st (.timeoutFire u)).1 u = none
    ∧ (cancelGeneration st u "Generation timed out after 30 minutes").2.2 = true := by
  obtain ⟨hn, hb, hgone⟩ := cancel_spec st u "Generation timed out after 30 minutes" j h
  exact ⟨rfl, hn, hgone, hb⟩

/-- C5 amended, witness: the active job of `demoSt`. -/
theorem c5_witness :
    findJob demoSt 1 = some jobABC
    ∧ (applyEvent demoSt (.timeoutFire 1)
        = ((cancelGeneration demoSt 1 "Generation timed out after 30 minutes").1,
           (cancelGeneration demoSt 1 "Generation timed out after 30 minutes").2.1)
       ∧ (applyEvent demoSt (.timeoutFire 1)).2
           = [Notif.cancelledN 1 "Generation timed out after 30 minutes"]
       ∧ findJob (applyEvent demoSt (.timeoutFire 1)).1 1 = none
       ∧ (cancelGeneration demoSt 1 "Generation timed out after 30 minutes").2.2 = true) :=
  ⟨by decide, c5_timeout_behaves_as_cancel demoSt 1 jobABC (by decide)⟩

/-- C9: with the process-wide ceiling of 3, a full table rejects a fourth
start of a fourth distinct requester with the concurrency-limit error,
and once the entry of any one job is cleaned up, a start from the fourth
requester with a
valid pattern succeeds. -/
theorem c9_concurrency_limit (st : SysState) (u1 u4 : ℕ) (pat ty : String)
    (now : ℕ) (jid : String)
    (hinv : Inv st) (hlen : st.activeJobs.length = 3)
    (h4 : findJob st u4 = none) (h1 : u1 ∈ keys st.activeJobs)
    (hv : (validatePattern pat ty).valid = true) :
    startGeneration st u4 pat ty now jid = .error .concurrencyLimitReached
    ∧ ∃ p, startGeneration (cleanupJob st u1) u4 pat ty now jid = .ok p := by
  constructor
  · unfold startGeneration
    rw [if_neg (by simp [h4]), if_pos (by omega)]
  · have h1s : ∃ j, findJob st u1 = some j := by
      rcases hf : findJob st u1 with _ | j
      · exact absurd ((findJob_eq_none_iff st u1).mp hf) (by simpa using h1)
      · exact ⟨j, rfl⟩
    obtain ⟨j1, hj1⟩ := h1s
    have hclean : cleanupJob st u1
        = ⟨(terminateWorker st u1).activeJobs.filter (fun e => !(e.1 == u1)),
           (terminateWorker st u1).pendingExits⟩ := by
      unfold cleanupJob
      rw [hj1]
    have hkeysT : keys (terminateWorker st u1).activeJobs = keys st.activeJobs :=
      keys_terminateWorker st u1
    have hlenT : (terminateWorker st u1).activeJobs.length = 3 := by
      have := congrArg List.length hkeysT
      simpa [keys, hlen] using this
    have hlen' : (cleanupJob st u1).activeJobs.length = 2 := by
      rw [hclean]
      rw [filter_ne_key_length _ u1 (by rw [hkeysT]; exact hinv) (by rw [hkeysT]; exact h1)]
      omega
    have h4' : findJob (cleanupJob st u1) u4 = none := by
      rw [findJob_eq_none_iff]
      intro hmem
      have hsub : keys (cleanupJob st u1).activeJobs ⊆ keys (terminateWorker st u1).activeJobs := by
        rw [hclean]
        exact List.Sublist.subset ((List.filter_sublist _).map Prod.fst)
      exact (findJob_eq_none_iff st u4).mp h4 (hkeysT ▸ hsub hmem)
    refine ⟨(⟨jsMapSet (cleanupJob st u1).activeJobs u4
               { jobId := jid, userId := u4, pattern := pat, mtype := ty,
                 startTime := now, lastProgress := 0,
                 difficulty := calculateDifficulty pat ty, workerTerminated := false },
             (cleanupJob st u1).pendingExits⟩,
            ⟨jid, calculateDifficulty pat ty⟩), ?_⟩
    unfold startGeneration
    rw [if_neg (by simp [h4']), if_neg (by omega), if_pos hv, difficulty_of_valid pat ty hv]

/-- C9 witness: the three-job state `demoSt3`, fourth requester 4 with the
valid pattern `"ABC"`. -/
theorem c9_witness :
    (Inv demoSt3 ∧ demoSt3.activeJobs.length = 3 ∧ findJob demoSt3 4 = none
     ∧ 1 ∈ keys demoSt3.activeJobs ∧ (validatePattern "ABC" "prefix").valid = true)
    ∧ (startGeneration demoSt3 4 "ABC" "prefix" 9 "j4" = .error .concurrencyLimitReached
       ∧ ∃ p, startGeneration (cleanupJob demoSt3 1) 4 "ABC" "prefix" 9 "j4" = .ok p) :=
  ⟨⟨by unfold Inv; decide, by decide, by decide, by decide, by decide⟩,
   c9_concurrency_limit demoSt3 1 4 "ABC" "prefix" 9 "j4"
     (by unfold Inv; decide) (by decide) (by decide) (by decide) (by decide)⟩

/-- A one-job state written directly (same job as `demoSt`). -/
def stA : SysState := ⟨[(1, jobABC)], []⟩

/-- C10 counterexample: a worker progress report raises the recorded
last attempt count from 0 to 50000, yet `getStatus` returns the very same
view — the status snapshot carries no `attemptsObserved` field. -/
theorem c10_counterexample :
    (findJob stA 1).map (fun j => j.lastProgress) = some 0
    ∧ (findJob (handleProgress stA 1 50000).1 1).map (fun j => j.lastProgress) = some 50000
    ∧ getStatus (handleProgress stA 1 50000).1 1 60000 = getStatus stA 1 60000
    ∧ (getStatus stA 1 60000).isSome = true := by decide

/-- C10 amended: `getStatus` is a pure read returning, for an active job,
exactly the snapshot `{pattern, matchType, formatted elapsed time,
difficulty}` — without the worker attempt count — and `none` when the
requester has no active job. -/
theorem c10_status_view (st : SysState) (u now : ℕ) :
    (findJob st u = none → getStatus st u now = none)
    ∧ (∀ j : JobInfo, findJob st u = some j →
        getStatus st u now
          = some { pattern := j.pattern, mtype := j.mtype,
                   elapsed := formatTime ⟨now - j.startTime, 1000⟩,
                   difficulty := j.difficulty }) := by
  constructor
  · intro h
    unfold getStatus
    rw [h]
    rfl
  · intro j h
    unfold getStatus
    rw [h]
    rfl

/-- C10 amended, witness at `stA`. -/
theorem c10_witness :
    findJob stA 1 = some jobABC
    ∧ getStatus stA 1 60000
      = some { pattern := jobABC.pattern, mtype := jobABC.mtype,
               elapsed := formatTime ⟨60000 - jobABC.startTime, 1000⟩,
               difficulty := jobABC.difficulty } :=
  ⟨by decide, (c10_status_view stA 1 60000).2 jobABC (by decide)⟩

/-- The base difficulty as the `switch` in the source computes it. -/
theorem difficulty_base (p t : String) :
    (calculateDifficulty p t).difficulty
      = if t = "contains" then ⟨58 ^ p.length, p.length⟩ else ⟨58 ^ p.length, 1⟩ := rfl

/-- C8: for a fixed match type the base difficulty grows strictly with
pattern length (within the valid length window), and for a non-empty
pattern the `contains` difficulty never exceeds the `prefix`/`suffix`
difficulty. -/
theorem c8_difficulty_monotone (p q t : String) (h1 : 0 < p.length)
    (h2 : q.length ≤ 6) (h3 : p.length < q.length) :
    (calculateDifficulty p t).difficulty.toRat < (calculateDifficulty q t).difficulty.toRat
    ∧ (calculateDifficulty p "contains").difficulty.toRat
        ≤ (calculateDifficulty p "prefix").difficulty.toRat
    ∧ (calculateDifficulty p "contains").difficulty.toRat
        ≤ (calculateDifficulty p "suffix").difficulty.toRat := by
  refine ⟨?_, ?_, ?_⟩
  · rw [difficulty_base, difficulty_base]
    by_cases ht : t = "contains"
    · rw [if_pos ht, if_pos ht]
      unfold Frac.toRat
      push_cast
      have hq : 0 < q.length := lt_trans h1 h3
      set a := p.length with ha
      set b := q.length with hb
      interval_cases b <;> interval_cases a <;> norm_num
    · rw [if_neg ht, if_neg ht]
      unfold Frac.toRat
      push_cast
      rw [div_one, div_one]
      exact pow_lt_pow_right₀ (by norm_num) h3
  · rw [difficulty_base, difficulty_base, if_pos rfl,
      if_neg (by decide : ¬("prefix" : String) = "contains")]
    unfold Frac.toRat
    push_cast
    rw [div_one]
    exact div_le_self (by positivity) (by exact_mod_cast h1)
  · rw [difficulty_base, difficulty_base, if_pos rfl,
      if_neg (by decide : ¬("suffix" : String) = "contains")]
    unfold Frac.toRat
    push_cast
    rw [div_one]
    exact div_le_self (by positivity) (by exact_mod_cast h1)

/-- C8 witness: `p = "A"`, `q = "AB"`, `matchType = contains`. -/
theorem c8_witness :
    (0 < "A".length ∧ "AB".length ≤ 6 ∧ "A".length < "AB".length)
    ∧ ((calculateDifficulty "A" "contains").difficulty.toRat
         < (calculateDifficulty "AB" "contains").difficulty.toRat
       ∧ (calculateDifficulty "A" "contains").difficulty.toRat
           ≤ (calculateDifficulty "A" "prefix").difficulty.toRat
       ∧ (calculateDifficulty "A" "contains").difficulty.toRat
           ≤ (calculateDifficulty "A" "suffix").difficulty.toRat) :=
  ⟨⟨by decide, by decide, by decide⟩,
   c8_difficulty_monotone "A" "AB" "contains" (by decide) (by decide) (by decide)⟩

end Vanity
